import Mathlib

/-!
Verification of the request-batching and transaction-lifecycle engine of the
inx-faucet repository (pkg/faucet/faucet.go), as a shallow embedding in Lean 4.

Modelling conventions:
* `iotago.BaseToken` and `iotago.Mana` are Go `uint64` values; they are embedded
  as `Nat`, and every place where the Go code can wrap around 2^64 is modelled
  with an explicit `% 2^64` (see `sumWrap`).
* Addresses, transaction ids and block ids are opaque to the faucet core; they
  are embedded as `Nat`.
* The Go `map[string]*queueItem` is embedded as an association list
  `List (String × QueueItem)`; the bounded channel `chan *queueItem` of
  capacity 5000 is a `List QueueItem` (head = front) together with the
  capacity check `queue.length < queueCapacity` for a non-blocking send.
* External collaborators (bech32 parsing, node health, balance RPC, metadata
  RPC) are passed as explicit arguments holding their results.
* A Go `panic` and a nil-pointer dereference are both modelled by returning
  `none` from an `Option`-valued transition.
-/

namespace InxFaucet

/-- Modulus of the Go uint64 type (`iotago.BaseToken`, `iotago.Mana`). -/
def U64 : Nat := 2 ^ 64

/-- Embeds `iotago.OutputID`: a transaction id together with an output index. -/
structure OutputID where
  transactionID : Nat
  outputIndex : Nat
deriving DecidableEq, Repr

/-- Embeds `queueItem` (faucet.go): an item of the faucet request queue. -/
structure QueueItem where
  bech32 : String
  baseTokenAmount : Nat
  address : Nat
deriving DecidableEq, Repr

/-- Embeds the part of `iotago.BasicOutput` the faucet core reads. -/
structure BasicOutput where
  amount : Nat
  mana : Nat
deriving DecidableEq, Repr

/-- Embeds `UTXOBasicOutput` (faucet.go): an unspent output with its id. -/
structure UTXOBasicOutput where
  outputID : OutputID
  output : BasicOutput
deriving DecidableEq, Repr

/-- Embeds `pendingTransaction` (faucet.go): info about the in-flight faucet
transaction. -/
structure PendingTransaction where
  blockID : Nat
  transactionID : Nat
  queuedItems : List QueueItem
  consumedInputs : List OutputID
deriving DecidableEq, Repr

/-- The mutable core state of `Faucet` (faucet.go): the balance projection, the
bounded request queue, the by-address index and the pending transaction slot. -/
structure FaucetState where
  faucetBalance : Nat
  queue : List QueueItem
  queueMap : List (String × QueueItem)
  pendingTransaction : Option PendingTransaction
deriving DecidableEq, Repr

/-- Capacity of the request queue channel: `make(chan *queueItem, 5000)`. -/
def queueCapacity : Nat := 5000

/-- Deletion from the by-address index: `delete(f.queueMap, request.Bech32)`. -/
def mapDelete (m : List (String × QueueItem)) (k : String) : List (String × QueueItem) :=
  m.filter fun p => !(p.1 == k)

/-- Insertion into the by-address index: `f.queueMap[bech32Addr] = request`. -/
def mapInsert (m : List (String × QueueItem)) (k : String) (v : QueueItem) :
    List (String × QueueItem) :=
  (k, v) :: mapDelete m k

/-- Key membership in the by-address index: `_, exists := f.queueMap[bech32Addr]`. -/
def mapMember (m : List (String × QueueItem)) (k : String) : Bool :=
  m.any fun p => p.1 == k

/-- Accumulation of uint64 values with Go wrap-around semantics, as in
`balance += output.Output.BaseTokenAmount()` (faucet.go 320-323). -/
def sumWrap (xs : List Nat) : Nat :=
  xs.foldl (fun acc a => (acc + a) % U64) 0

/-- Embeds `collectUnlockableFaucetOutputsAndBalanceFuncWithoutLocking`
(faucet.go 312-350), balance part: sum the amounts of the unspent outputs, sum
the amounts of all queued requests, then subtract first the storage deposit of
the canonical empty basic output and then the queued total, each subtraction
guarded against underflow (clamped to 0). -/
def collectUnlockableFaucetOutputsAndBalanceWithoutLocking (minStorageDeposit : Nat)
    (unspentOutputs : List UTXOBasicOutput) (queueMap : List (String × QueueItem)) : Nat :=
  let balance := sumWrap (unspentOutputs.map fun o => o.output.amount)
  let pendingRequestsBalance := sumWrap (queueMap.map fun p => p.2.baseTokenAmount)
  let balanceAfterDeposit :=
    if balance ≥ minStorageDeposit then balance - minStorageDeposit else 0
  if balanceAfterDeposit ≥ pendingRequestsBalance then
    balanceAfterDeposit - pendingRequestsBalance
  else 0

theorem sumWrap_eq_sum_aux (xs : List Nat) :
    ∀ acc : Nat, acc + xs.sum < U64 →
      xs.foldl (fun acc a => (acc + a) % U64) acc = acc + xs.sum := by
  induction xs with
  | nil => intro acc _; simp
  | cons a l ih =>
    intro acc h
    simp only [List.foldl_cons, List.sum_cons] at *
    have h1 : acc + a < U64 := by omega
    rw [Nat.mod_eq_of_lt h1, ih (acc + a) (by omega)]
    omega

theorem sumWrap_eq_sum (xs : List Nat) (h : xs.sum < U64) : sumWrap xs = xs.sum := by
  have := sumWrap_eq_sum_aux xs 0 (by omega)
  simpa [sumWrap] using this

/-- C1: for every list of unspent outputs and every queue map, as long as the
uint64 accumulations do not wrap, the balance projection equals
max(0, max(0, sum of unspent output amounts − reserved storage deposit)
− sum of queued request amounts), and it is never negative. -/
theorem collectUnlockableFaucetOutputsAndBalance_projection (minStorageDeposit : Nat)
    (unspentOutputs : List UTXOBasicOutput) (queueMap : List (String × QueueItem))
    (houts : (unspentOutputs.map fun o => o.output.amount).sum < U64)
    (hqueued : (queueMap.map fun p => p.2.baseTokenAmount).sum < U64) :
    ((collectUnlockableFaucetOutputsAndBalanceWithoutLocking minStorageDeposit
        unspentOutputs queueMap : Nat) : Int)
        = max 0 (max 0
            ((((unspentOutputs.map fun o => o.output.amount).sum : Nat) : Int)
              - (minStorageDeposit : Int))
          - (((queueMap.map fun p => p.2.baseTokenAmount).sum : Nat) : Int))
      ∧ 0 ≤ ((collectUnlockableFaucetOutputsAndBalanceWithoutLocking minStorageDeposit
          unspentOutputs queueMap : Nat) : Int) := by
  unfold collectUnlockableFaucetOutputsAndBalanceWithoutLocking
  rw [sumWrap_eq_sum _ houts, sumWrap_eq_sum _ hqueued]
  dsimp only
  constructor
  · split <;> split <;> omega
  · split <;> split <;> omega

/-- Witness for C1 at a concrete input: one unspent output of amount 250, one
queued request of amount 30, storage deposit 100. -/
theorem collectUnlockableFaucetOutputsAndBalance_projection_witness :
    ((collectUnlockableFaucetOutputsAndBalanceWithoutLocking 100
        [⟨⟨1, 0⟩, ⟨250, 0⟩⟩] [("a", ⟨"a", 30, 7⟩)] : Nat) : Int)
      = max 0 (max 0 ((250 : Int) - 100) - 30) := by
  have h := collectUnlockableFaucetOutputsAndBalance_projection 100
    [⟨⟨1, 0⟩, ⟨250, 0⟩⟩] [("a", ⟨"a", 30, 7⟩)]
    (by norm_num [U64]) (by norm_num [U64])
  simpa using h.1

/-! ## Admission (Enqueue, faucet.go 390-444) -/

/-- Embeds the faucet options relevant to admission (`Options`, faucet.go). -/
structure Options where
  baseTokenAmount : Nat
  baseTokenAmountSmall : Nat
  baseTokenAmountMaxTarget : Nat
deriving DecidableEq, Repr

/-- The errors `Enqueue` can return, one constructor per `return nil, ...` site.
`invalidAddress`, `alreadyInQueue` and `enoughFundsAlready` wrap
`httpserver.ErrInvalidParameter`; the others wrap `echo.ErrInternalServerError`
(the spec calls that category ServiceUnavailable). -/
inductive EnqueueError where
  | invalidAddress
  | nodeUnhealthy
  | alreadyInQueue
  | enoughFundsAlready
  | insufficientFaucetFunds
  | queueFull
deriving DecidableEq, Repr

/-- Classification of an `EnqueueError` as an InvalidParameter error, following
which Go error each `Enqueue` exit wraps. -/
def EnqueueError.isInvalidParameter : EnqueueError → Bool
  | .invalidAddress => true
  | .alreadyInQueue => true
  | .enoughFundsAlready => true
  | .nodeUnhealthy => false
  | .insufficientFaucetFunds => false
  | .queueFull => false

/-- Embeds `EnqueueResponse` (faucet.go). -/
structure EnqueueResponse where
  address : String
  waitingRequests : Nat
deriving DecidableEq, Repr

/-- Embeds the amount-tier step of `Enqueue` (faucet.go 404-412): start from
`baseTokenAmount`; when the target-balance query succeeds and the balance is at
least `baseTokenAmount`, switch to `baseTokenAmountSmall`, and inside that
branch reject (`.error ()`, "enough funds already") when the balance is also at
least `baseTokenAmountMaxTarget`. A failed query keeps `baseTokenAmount`. -/
def enqueueBaseTokenAmount (opts : Options) (balanceQuery : Except Unit Nat) :
    Except Unit Nat :=
  match balanceQuery with
  | .error _ => .ok opts.baseTokenAmount
  | .ok balance =>
    if balance ≥ opts.baseTokenAmount then
      if balance ≥ opts.baseTokenAmountMaxTarget then .error ()
      else .ok opts.baseTokenAmountSmall
    else .ok opts.baseTokenAmount

/-- Embeds `Enqueue` (faucet.go 390-444). External collaborators appear as
arguments: `parsedAddress` is the result of `parseBech32Address`,
`nodeHealthy` the result of `isNodeHealthyFunc`, `balanceQuery` the result of
`computeUnlockableAddressBalanceFunc`. The returned state is the faucet state
after the call (unchanged whenever an error is returned). -/
def Enqueue (opts : Options) (parsedAddress : Option Nat) (nodeHealthy : Bool)
    (balanceQuery : Except Unit Nat) (bech32Addr : String) (s : FaucetState) :
    Except EnqueueError EnqueueResponse × FaucetState :=
  match parsedAddress with
  | none => (.error .invalidAddress, s)
  | some addr =>
    if !nodeHealthy then (.error .nodeUnhealthy, s)
    else if mapMember s.queueMap bech32Addr then (.error .alreadyInQueue, s)
    else
      match enqueueBaseTokenAmount opts balanceQuery with
      | .error _ => (.error .enoughFundsAlready, s)
      | .ok baseTokenAmount =>
        if baseTokenAmount > s.faucetBalance then (.error .insufficientFaucetFunds, s)
        else
          let request : QueueItem := ⟨bech32Addr, baseTokenAmount, addr⟩
          if s.queue.length < queueCapacity then
            let queueMap := mapInsert s.queueMap bech32Addr request
            (.ok ⟨bech32Addr, queueMap.length⟩,
              { s with
                faucetBalance := s.faucetBalance - baseTokenAmount
                queue := s.queue ++ [request]
                queueMap := queueMap })
          else (.error .queueFull, s)

/-- C2 (counterexample): with options standard = 10, small = 1, max_target = 5,
a successful balance query returning 7 ≥ max_target does not reject the call:
the code only reaches the max-target check when the balance is also at least
the standard amount, so the request is admitted with the standard amount 10. -/
theorem Enqueue_maxTarget_counterexample :
    (7 : Nat) ≥ (5 : Nat)
      ∧ (Enqueue ⟨10, 1, 5⟩ (some 0) true (.ok 7) "addrA"
          ⟨100, [], [], none⟩).1 = .ok ⟨"addrA", 1⟩
      ∧ (Enqueue ⟨10, 1, 5⟩ (some 0) true (.ok 7) "addrA"
          ⟨100, [], [], none⟩).2.queueMap = [("addrA", ⟨"addrA", 10, 0⟩)] := by
  refine ⟨by norm_num, ?_, ?_⟩ <;> rfl

/-- C2 (amended): for every Enqueue call that passes address parsing and the
node-health check: an address already in the address-index is rejected with
InvalidParameter (already in queue); if the balance query succeeds with
balance ≥ standard_amount and balance ≥ max_target_balance the call is rejected
with InvalidParameter (enough funds already); if it succeeds with
standard_amount ≤ balance < max_target_balance the committed amount is
small_amount; otherwise (balance below standard_amount, or query failure) the
committed amount is standard_amount; and the request inserted by a successful
call carries exactly the chosen amount. -/
theorem Enqueue_admission_tiers (opts : Options) (addr : Nat)
    (balanceQuery : Except Unit Nat) (bech32Addr : String) (s : FaucetState) :
    (mapMember s.queueMap bech32Addr = true →
      Enqueue opts (some addr) true balanceQuery bech32Addr s = (.error .alreadyInQueue, s)
        ∧ EnqueueError.alreadyInQueue.isInvalidParameter = true)
    ∧ (∀ balance : Nat, balanceQuery = .ok balance → balance ≥ opts.baseTokenAmount →
        balance ≥ opts.baseTokenAmountMaxTarget →
        mapMember s.queueMap bech32Addr = false →
        Enqueue opts (some addr) true balanceQuery bech32Addr s
            = (.error .enoughFundsAlready, s)
          ∧ EnqueueError.enoughFundsAlready.isInvalidParameter = true)
    ∧ (∀ balance : Nat, balanceQuery = .ok balance → balance ≥ opts.baseTokenAmount →
        balance < opts.baseTokenAmountMaxTarget →
        enqueueBaseTokenAmount opts balanceQuery = .ok opts.baseTokenAmountSmall)
    ∧ (∀ balance : Nat, balanceQuery = .ok balance → balance < opts.baseTokenAmount →
        enqueueBaseTokenAmount opts balanceQuery = .ok opts.baseTokenAmount)
    ∧ (balanceQuery = .error () →
        enqueueBaseTokenAmount opts balanceQuery = .ok opts.baseTokenAmount)
    ∧ (∀ c : Nat, mapMember s.queueMap bech32Addr = false →
        enqueueBaseTokenAmount opts balanceQuery = .ok c →
        c ≤ s.faucetBalance → s.queue.length < queueCapacity →
        (Enqueue opts (some addr) true balanceQuery bech32Addr s).2.queueMap
          = mapInsert s.queueMap bech32Addr ⟨bech32Addr, c, addr⟩) := by
  refine ⟨?_, ?_, ?_, ?_, ?_, ?_⟩
  · intro hmem
    simp [Enqueue, hmem, EnqueueError.isInvalidParameter]
  · intro balance hq h1 h2 hmem
    subst hq
    simp [Enqueue, hmem, enqueueBaseTokenAmount, h1, h2, EnqueueError.isInvalidParameter,
      le_of_lt]
  · intro balance hq h1 h2
    subst hq
    simp [enqueueBaseTokenAmount, h1, h2, not_le.mpr h2]
  · intro balance hq h1
    subst hq
    simp [enqueueBaseTokenAmount, not_le.mpr h1]
  · intro hq
    subst hq
    simp [enqueueBaseTokenAmount]
  · intro c hmem hc hle hroom
    simp only [Enqueue, hmem, hc, Bool.not_true, Bool.false_eq_true, if_false,
      not_lt.mpr hle, gt_iff_lt]
    rw [if_pos hroom]

/-- Witness for C2 (amended) at concrete inputs: default options
(standard 10_000_000, small 1_000_000, max_target 20_000_000); a target balance
of 25_000_000 is rejected as enough-funds-already, and a target balance of
15_000_000 selects the small amount. -/
theorem Enqueue_admission_tiers_witness :
    Enqueue ⟨10000000, 1000000, 20000000⟩ (some 0) true (.ok 25000000) "addrC"
        ⟨1000000000, [], [], none⟩
      = (.error .enoughFundsAlready, ⟨1000000000, [], [], none⟩)
      ∧ enqueueBaseTokenAmount ⟨10000000, 1000000, 20000000⟩ (.ok 15000000)
        = .ok 1000000 := by
  have h1 := Enqueue_admission_tiers ⟨10000000, 1000000, 20000000⟩ 0 (.ok 25000000)
    "addrC" ⟨1000000000, [], [], none⟩
  have h2 := Enqueue_admission_tiers ⟨10000000, 1000000, 20000000⟩ 0 (.ok 15000000)
    "addrC" ⟨1000000000, [], [], none⟩
  exact ⟨(h1.2.1 25000000 rfl (by norm_num) (by norm_num) rfl).1,
    h2.2.2.1 15000000 rfl (by norm_num) (by norm_num)⟩

/-- C3: in the commit step of Enqueue (write-locked section, faucet.go
416-443), with the not-already-queued check passed and commit amount `c` chosen
by the tier step: if `c` exceeds the projected balance the call fails with
ServiceUnavailable (insufficient faucet funds) and the state is unchanged; if
the queue channel is full the call fails with ServiceUnavailable (queue full)
and the state is unchanged; otherwise the projection decreases by exactly `c`,
the request is inserted into the address-index, appended to the queue, and the
response carries the address and the queue depth. -/
theorem Enqueue_commit_step (opts : Options) (addr : Nat)
    (balanceQuery : Except Unit Nat) (bech32Addr : String) (s : FaucetState) (c : Nat)
    (hmem : mapMember s.queueMap bech32Addr = false)
    (hamount : enqueueBaseTokenAmount opts balanceQuery = .ok c) :
    (c > s.faucetBalance →
      Enqueue opts (some addr) true balanceQuery bech32Addr s
          = (.error .insufficientFaucetFunds, s)
        ∧ EnqueueError.insufficientFaucetFunds.isInvalidParameter = false)
    ∧ (c ≤ s.faucetBalance → queueCapacity ≤ s.queue.length →
      Enqueue opts (some addr) true balanceQuery bech32Addr s = (.error .queueFull, s)
        ∧ EnqueueError.queueFull.isInvalidParameter = false)
    ∧ (c ≤ s.faucetBalance → s.queue.length < queueCapacity →
      Enqueue opts (some addr) true balanceQuery bech32Addr s
          = (.ok ⟨bech32Addr,
                (mapInsert s.queueMap bech32Addr ⟨bech32Addr, c, addr⟩).length⟩,
              { s with
                faucetBalance := s.faucetBalance - c
                queue := s.queue ++ [⟨bech32Addr, c, addr⟩]
                queueMap := mapInsert s.queueMap bech32Addr ⟨bech32Addr, c, addr⟩ })
        ∧ (Enqueue opts (some addr) true balanceQuery bech32Addr s).2.faucetBalance + c
            = s.faucetBalance) := by
  refine ⟨?_, ?_, ?_⟩
  · intro hgt
    simp [Enqueue, hmem, hamount, hgt, EnqueueError.isInvalidParameter]
  · intro hle hfull
    simp only [Enqueue, hmem, hamount, Bool.not_true, Bool.false_eq_true, if_false,
      gt_iff_lt]
    rw [if_neg (by omega), if_neg (by omega)]
    simp [EnqueueError.isInvalidParameter]
  · intro hle hroom
    have heq : Enqueue opts (some addr) true balanceQuery bech32Addr s
        = (.ok ⟨bech32Addr,
              (mapInsert s.queueMap bech32Addr ⟨bech32Addr, c, addr⟩).length⟩,
            { s with
              faucetBalance := s.faucetBalance - c
              queue := s.queue ++ [⟨bech32Addr, c, addr⟩]
              queueMap := mapInsert s.queueMap bech32Addr ⟨bech32Addr, c, addr⟩ }) := by
      simp only [Enqueue, hmem, hamount, Bool.not_true, Bool.false_eq_true, if_false,
        gt_iff_lt]
      rw [if_neg (by omega), if_pos hroom]
    exact ⟨heq, by rw [heq]; simp; omega⟩

/-- Witness for C3 at concrete inputs: with balance 100 and commit amount 10
the request is admitted, the projection drops to 90 and the depth is 1. -/
theorem Enqueue_commit_step_witness :
    Enqueue ⟨10, 1, 20⟩ (some 3) true (.error ()) "addrW" ⟨100, [], [], none⟩
        = (.ok ⟨"addrW", 1⟩,
            ⟨90, [⟨"addrW", 10, 3⟩], [("addrW", ⟨"addrW", 10, 3⟩)], none⟩)
      ∧ (Enqueue ⟨10, 1, 20⟩ (some 3) true (.error ()) "addrW"
          ⟨100, [], [], none⟩).2.faucetBalance + 10 = 100 := by
  have h := Enqueue_commit_step ⟨10, 1, 20⟩ 3 (.error ()) "addrW" ⟨100, [], [], none⟩ 10
    rfl rfl
  have h3 := h.2.2 (by norm_num) (by norm_num [queueCapacity])
  exact ⟨by simpa [mapInsert, mapDelete] using h3.1, h3.2⟩

/-! ## Scenario 1 of the spec (claim C9) -/

/-- Faucet state at startup for scenario 1: empty queue and index, no pending
transaction, and the balance projection computed (as in
`computeAndSetInitialFaucetBalance`) from a single unspent output of
100_000_000 with the given storage deposit. -/
def scenario1State (minStorageDeposit : Nat) : FaucetState :=
  ⟨collectUnlockableFaucetOutputsAndBalanceWithoutLocking minStorageDeposit
      [⟨⟨1, 0⟩, ⟨100000000, 0⟩⟩] [],
    [], [], none⟩

/-- The Enqueue call of scenario 1: default amounts (standard 10_000_000,
small 1_000_000, max_target 20_000_000), healthy node, target balance 0. -/
def scenario1Enqueue (minStorageDeposit : Nat) :
    Except EnqueueError EnqueueResponse × FaucetState :=
  Enqueue ⟨10000000, 1000000, 20000000⟩ (some 0) true (.ok 0) "addr_A"
    (scenario1State minStorageDeposit)

/-- C9 (counterexample): at storage deposit 12345, admitting addr_A answers
{addr_A, 1} but leaves the projection at 90_000_000 − 12345, which differs from
the claimed 89_999_999 − 12345. -/
theorem scenario1_counterexample :
    (scenario1Enqueue 12345).1 = .ok ⟨"addr_A", 1⟩
      ∧ (scenario1Enqueue 12345).2.faucetBalance = 90000000 - 12345
      ∧ (90000000 - 12345 : Nat) ≠ 89999999 - 12345 := by
  refine ⟨rfl, rfl, by norm_num⟩

/-- C9 (amended): starting from an empty queue, a single unspent faucet output
of 100_000_000, standard amount 10_000_000, max target 20_000_000 and a target
address with balance 0, admitting addr_A succeeds with response {addr_A, 1} and
the balance projection afterwards equals 90_000_000 − reserved storage deposit. -/
theorem scenario1_projection (minStorageDeposit : Nat)
    (h : minStorageDeposit ≤ 90000000) :
    (scenario1Enqueue minStorageDeposit).1 = .ok ⟨"addr_A", 1⟩
      ∧ (scenario1Enqueue minStorageDeposit).2.faucetBalance
        = 90000000 - minStorageDeposit := by
  have hbal : (scenario1State minStorageDeposit).faucetBalance
      = 100000000 - minStorageDeposit := by
    show collectUnlockableFaucetOutputsAndBalanceWithoutLocking minStorageDeposit
      [⟨⟨1, 0⟩, ⟨100000000, 0⟩⟩] [] = 100000000 - minStorageDeposit
    unfold collectUnlockableFaucetOutputsAndBalanceWithoutLocking sumWrap
    have hmod : (0 + 100000000) % U64 = 100000000 := by norm_num [U64]
    simp only [List.map_cons, List.map_nil, List.foldl_cons, List.foldl_nil, hmod]
    rw [if_pos (by omega), if_pos (by omega)]
    omega
  have hstate : scenario1State minStorageDeposit
      = ⟨100000000 - minStorageDeposit, [], [], none⟩ := by
    unfold scenario1State at hbal ⊢
    simp only at hbal
    rw [hbal]
  have hno : ¬ (10000000 > 100000000 - minStorageDeposit) := by omega
  have hrun : scenario1Enqueue minStorageDeposit
      = (.ok ⟨"addr_A", 1⟩,
          ⟨100000000 - minStorageDeposit - 10000000,
            [⟨"addr_A", 10000000, 0⟩], [("addr_A", ⟨"addr_A", 10000000, 0⟩)], none⟩) := by
    unfold scenario1Enqueue
    rw [hstate]
    simp [Enqueue, enqueueBaseTokenAmount, mapMember, mapInsert, mapDelete,
      queueCapacity, hno]
  exact ⟨by rw [hrun], by rw [hrun]; simp only; omega⟩

/-- Witness for C9 (amended) at storage deposit 12345. -/
theorem scenario1_projection_witness :
    (scenario1Enqueue 12345).1 = .ok ⟨"addr_A", 1⟩
      ∧ (scenario1Enqueue 12345).2.faucetBalance = 90000000 - 12345 :=
  scenario1_projection 12345 (by norm_num)

/-! ## Queue and address-index maintenance (faucet.go 482-537) -/

/-- Embeds `clearRequestWithoutLocking` (faucet.go 485-487): delete the request
from the by-address index. -/
def clearRequestWithoutLocking (s : FaucetState) (request : QueueItem) : FaucetState :=
  { s with queueMap := mapDelete s.queueMap request.bech32 }

/-- Embeds `clearRequestsWithoutLocking` (faucet.go 492-496). -/
def clearRequestsWithoutLocking (s : FaucetState) (batchedRequests : List QueueItem) :
    FaucetState :=
  batchedRequests.foldl clearRequestWithoutLocking s

/-- Embeds `readdRequestsWithoutLocking` (faucet.go 500-509): non-blocking
re-enqueue of each request in order; when the channel is full the request is
instead deleted from the by-address index. -/
def readdRequestsWithoutLocking (s : FaucetState) (batchedRequests : List QueueItem) :
    FaucetState :=
  batchedRequests.foldl
    (fun st request =>
      if st.queue.length < queueCapacity then { st with queue := st.queue ++ [request] }
      else clearRequestWithoutLocking st request)
    s

/-- Deleting a whole list of requests from the by-address index, used to state
the cumulative effect of the index deletions. -/
def mapDeleteMany (m : List (String × QueueItem)) (reqs : List QueueItem) :
    List (String × QueueItem) :=
  reqs.foldl (fun acc r => mapDelete acc r.bech32) m

theorem clearRequestsWithoutLocking_eq (batchedRequests : List QueueItem) :
    ∀ s : FaucetState, clearRequestsWithoutLocking s batchedRequests
      = { s with queueMap := mapDeleteMany s.queueMap batchedRequests } := by
  induction batchedRequests with
  | nil => intro s; simp [clearRequestsWithoutLocking, mapDeleteMany]
  | cons r rest ih =>
    intro s
    simp only [clearRequestsWithoutLocking, List.foldl_cons] at *
    rw [ih]
    simp [clearRequestWithoutLocking, mapDeleteMany]

theorem readdRequestsWithoutLocking_room (batchedRequests : List QueueItem) :
    ∀ s : FaucetState, s.queue.length + batchedRequests.length ≤ queueCapacity →
      readdRequestsWithoutLocking s batchedRequests
        = { s with queue := s.queue ++ batchedRequests } := by
  induction batchedRequests with
  | nil => intro s _; simp [readdRequestsWithoutLocking]
  | cons r rest ih =>
    intro s h
    simp only [List.length_cons] at h
    simp only [readdRequestsWithoutLocking, List.foldl_cons] at *
    rw [if_pos (by omega)]
    rw [ih { s with queue := s.queue ++ [r] } (by simp; omega)]
    simp

theorem readdRequestsWithoutLocking_full (batchedRequests : List QueueItem) :
    ∀ s : FaucetState, queueCapacity ≤ s.queue.length →
      readdRequestsWithoutLocking s batchedRequests
        = { s with queueMap := mapDeleteMany s.queueMap batchedRequests } := by
  induction batchedRequests with
  | nil => intro s _; simp [readdRequestsWithoutLocking, mapDeleteMany]
  | cons r rest ih =>
    intro s h
    simp only [readdRequestsWithoutLocking, List.foldl_cons] at *
    rw [if_neg (by omega)]
    rw [ih (clearRequestWithoutLocking s r) (by simp [clearRequestWithoutLocking]; omega)]
    simp [clearRequestWithoutLocking, mapDeleteMany]

/-! ## Batch filtering (processRequestsWithoutLocking, faucet.go 579-619) -/

/-- Embeds the loop of `processRequestsWithoutLocking` (faucet.go 586-614).
The triple returned is (state after the in-loop index deletions, processed
requests, unprocessed requests), accumulated in arrival order. `nodeHealthy`
is the value of `isNodeHealthyFunc()` read once before the loop;
`maxOutputsCount` is the protocol constant `iotago.MaxOutputsCount`. -/
def processRequestsLoop (nodeHealthy : Bool) (maxOutputsCount : Nat) (s : FaucetState)
    (collectedRequestsCounter balance : Nat) :
    List QueueItem → FaucetState × List QueueItem × List QueueItem
  | [] => (s, [], [])
  | request :: rest =>
    if !nodeHealthy then
      let r := processRequestsLoop nodeHealthy maxOutputsCount s
        collectedRequestsCounter balance rest
      (r.1, r.2.1, request :: r.2.2)
    else if collectedRequestsCounter ≥ maxOutputsCount - 1 then
      let r := processRequestsLoop nodeHealthy maxOutputsCount s
        collectedRequestsCounter balance rest
      (r.1, r.2.1, request :: r.2.2)
    else if balance < request.baseTokenAmount then
      processRequestsLoop nodeHealthy maxOutputsCount
        (clearRequestWithoutLocking s request) collectedRequestsCounter balance rest
    else
      let r := processRequestsLoop nodeHealthy maxOutputsCount s
        (collectedRequestsCounter + 1) (balance - request.baseTokenAmount) rest
      (r.1, request :: r.2.1, r.2.2)

/-- Embeds `processRequestsWithoutLocking` (faucet.go 581-619): run the filter
loop, then re-add the unprocessed requests to the queue (non-blocking), and
return the processed requests together with the resulting state. -/
def processRequestsWithoutLocking (nodeHealthy : Bool) (maxOutputsCount : Nat)
    (s : FaucetState) (collectedRequestsCounter balance : Nat)
    (batchedRequests : List QueueItem) : List QueueItem × FaucetState :=
  let r := processRequestsLoop nodeHealthy maxOutputsCount s
    collectedRequestsCounter balance batchedRequests
  (r.2.1, readdRequestsWithoutLocking r.1 r.2.2)

theorem processRequestsLoop_unhealthy (maxOutputsCount : Nat)
    (batchedRequests : List QueueItem) : ∀ (s : FaucetState) (c b : Nat),
      processRequestsLoop false maxOutputsCount s c b batchedRequests
        = (s, [], batchedRequests) := by
  induction batchedRequests with
  | nil => intro s c b; rfl
  | cons r rest ih =>
    intro s c b
    simp only [processRequestsLoop, Bool.not_false, if_true, ih s c b]

theorem processRequestsLoop_sublist (nodeHealthy : Bool) (maxOutputsCount : Nat)
    (batchedRequests : List QueueItem) : ∀ (s : FaucetState) (c b : Nat),
      ((processRequestsLoop nodeHealthy maxOutputsCount s c b
        batchedRequests).2.1).Sublist batchedRequests := by
  induction batchedRequests with
  | nil => intro s c b; simp [processRequestsLoop]
  | cons request rest ih =>
    intro s c b
    simp only [processRequestsLoop]
    split
    · exact (ih s c b).cons request
    · split
      · exact (ih s c b).cons request
      · split
        · exact (ih (clearRequestWithoutLocking s request) c b).cons request
        · exact (ih s (c + 1) (b - request.baseTokenAmount)).cons₂ request

theorem processRequestsLoop_queue_eq (nodeHealthy : Bool) (maxOutputsCount : Nat)
    (batchedRequests : List QueueItem) : ∀ (s : FaucetState) (c b : Nat),
      (processRequestsLoop nodeHealthy maxOutputsCount s c b
        batchedRequests).1.queue = s.queue := by
  induction batchedRequests with
  | nil => intro s c b; rfl
  | cons request rest ih =>
    intro s c b
    simp only [processRequestsLoop]
    split
    · exact ih s c b
    · split
      · exact ih s c b
      · split
        · rw [ih (clearRequestWithoutLocking s request) c b]
          rfl
        · exact ih s (c + 1) (b - request.baseTokenAmount)

/-- C6: batch filtering, iterating in arrival order with the counter
initialised to the number of unspent outputs and the balance to the current
projection: an unhealthy node defers every request (re-added, not dropped); a
counter at or above MAX_OUTPUTS − 1 defers the request; a running balance below
the request amount drops the request silently (deleted from the address-index,
re-added to neither the processed nor the unprocessed list); otherwise the
request is accepted, the balance decreased by its amount and the counter
increased. The accepted requests are an order-preserving subsequence of the
batch, the loop itself never touches the queue, and the deferred requests are
re-enqueued non-blocking afterwards — appended in order when the channel has
room, deleted from the address-index when it is full. -/
theorem processRequests_batch_filtering (nodeHealthy : Bool) (maxOutputsCount : Nat)
    (s : FaucetState) (c b : Nat) (request : QueueItem) (rest batch : List QueueItem) :
    (processRequestsLoop false maxOutputsCount s c b batch = (s, [], batch))
    ∧ (c ≥ maxOutputsCount - 1 →
        processRequestsLoop true maxOutputsCount s c b (request :: rest)
          = ((processRequestsLoop true maxOutputsCount s c b rest).1,
              (processRequestsLoop true maxOutputsCount s c b rest).2.1,
              request :: (processRequestsLoop true maxOutputsCount s c b rest).2.2))
    ∧ (c < maxOutputsCount - 1 → b < request.baseTokenAmount →
        processRequestsLoop true maxOutputsCount s c b (request :: rest)
          = processRequestsLoop true maxOutputsCount
              { s with queueMap := mapDelete s.queueMap request.bech32 } c b rest)
    ∧ (c < maxOutputsCount - 1 → request.baseTokenAmount ≤ b →
        processRequestsLoop true maxOutputsCount s c b (request :: rest)
          = ((processRequestsLoop true maxOutputsCount s (c + 1)
                (b - request.baseTokenAmount) rest).1,
              request :: (processRequestsLoop true maxOutputsCount s (c + 1)
                (b - request.baseTokenAmount) rest).2.1,
              (processRequestsLoop true maxOutputsCount s (c + 1)
                (b - request.baseTokenAmount) rest).2.2))
    ∧ ((processRequestsLoop nodeHealthy maxOutputsCount s c b batch).2.1).Sublist batch
    ∧ (processRequestsLoop nodeHealthy maxOutputsCount s c b batch).1.queue = s.queue
    ∧ (s.queue.length
          + (processRequestsLoop nodeHealthy maxOutputsCount s c b batch).2.2.length
          ≤ queueCapacity →
        processRequestsWithoutLocking nodeHealthy maxOutputsCount s c b batch
          = ((processRequestsLoop nodeHealthy maxOutputsCount s c b batch).2.1,
              { (processRequestsLoop nodeHealthy maxOutputsCount s c b batch).1 with
                queue := s.queue
                  ++ (processRequestsLoop nodeHealthy maxOutputsCount s c b batch).2.2 }))
    ∧ (queueCapacity ≤ s.queue.length →
        processRequestsWithoutLocking nodeHealthy maxOutputsCount s c b batch
          = ((processRequestsLoop nodeHealthy maxOutputsCount s c b batch).2.1,
              { (processRequestsLoop nodeHealthy maxOutputsCount s c b batch).1 with
                queueMap := mapDeleteMany
                  (processRequestsLoop nodeHealthy maxOutputsCount s c b batch).1.queueMap
                  (processRequestsLoop nodeHealthy maxOutputsCount s c b batch).2.2 })) := by
  refine ⟨processRequestsLoop_unhealthy maxOutputsCount batch s c b, ?_, ?_, ?_,
    processRequestsLoop_sublist nodeHealthy maxOutputsCount batch s c b,
    processRequestsLoop_queue_eq nodeHealthy maxOutputsCount batch s c b, ?_, ?_⟩
  · intro h
    simp only [processRequestsLoop, Bool.not_true, Bool.false_eq_true, if_false, if_pos h]
  · intro h1 h2
    simp only [processRequestsLoop, Bool.not_true, Bool.false_eq_true, if_false,
      if_neg (not_le.mpr h1), if_pos h2]
    rfl
  · intro h1 h2
    simp only [processRequestsLoop, Bool.not_true, Bool.false_eq_true, if_false,
      if_neg (not_le.mpr h1), if_neg (not_lt.mpr h2)]
  · intro hroom
    unfold processRequestsWithoutLocking
    dsimp only
    rw [readdRequestsWithoutLocking_room
      (processRequestsLoop nodeHealthy maxOutputsCount s c b batch).2.2
      (processRequestsLoop nodeHealthy maxOutputsCount s c b batch).1
      (by rw [processRequestsLoop_queue_eq]; exact hroom),
      processRequestsLoop_queue_eq]
  · intro hfull
    unfold processRequestsWithoutLocking
    dsimp only
    rw [readdRequestsWithoutLocking_full
      (processRequestsLoop nodeHealthy maxOutputsCount s c b batch).2.2
      (processRequestsLoop nodeHealthy maxOutputsCount s c b batch).1
      (by rw [processRequestsLoop_queue_eq]; exact hfull)]

/-- Witness for C6 at concrete inputs: with a healthy node, MAX_OUTPUTS 128,
counter 0 and balance 10, the batch [x:4, y:100, z:5] accepts x and z (an
order-preserving subsequence), drops y from the address-index, and a counter
of 127 defers the head request. -/
theorem processRequests_batch_filtering_witness :
    processRequestsWithoutLocking true 128 ⟨10, [], [("y", ⟨"y", 100, 2⟩)], none⟩ 0 10
        [⟨"x", 4, 1⟩, ⟨"y", 100, 2⟩, ⟨"z", 5, 3⟩]
      = ([⟨"x", 4, 1⟩, ⟨"z", 5, 3⟩], ⟨10, [], [], none⟩)
      ∧ processRequestsLoop true 128 ⟨10, [], [("y", ⟨"y", 100, 2⟩)], none⟩ 127 10
          [⟨"x", 4, 1⟩]
        = (⟨10, [], [("y", ⟨"y", 100, 2⟩)], none⟩, [], [⟨"x", 4, 1⟩]) := by
  constructor
  · have h := processRequests_batch_filtering true 128
      ⟨10, [], [("y", ⟨"y", 100, 2⟩)], none⟩ 0 10 ⟨"x", 4, 1⟩ []
      [⟨"x", 4, 1⟩, ⟨"y", 100, 2⟩, ⟨"z", 5, 3⟩]
    have hr := h.2.2.2.2.2.2.1 (by norm_num [processRequestsLoop,
      clearRequestWithoutLocking, mapDelete, queueCapacity])
    rw [hr]
    norm_num [processRequestsLoop, clearRequestWithoutLocking, mapDelete, mapDeleteMany]
  · have h := processRequests_batch_filtering true 128
      ⟨10, [], [("y", ⟨"y", 100, 2⟩)], none⟩ 127 10 ⟨"x", 4, 1⟩ [] []
    have hd := h.2.1 (by norm_num)
    rw [hd]
    rfl

/-! ## Transaction assembly (createTransactionBuilder, faucet.go 621-718) -/

/-- One output added by `createTransactionBuilder`: base-token amount, mana,
and the target of its single address-unlock condition. -/
structure TxOutput where
  amount : Nat
  mana : Nat
  address : Nat
deriving DecidableEq, Repr

/-- Embeds the `manaPayoutPerOutput` closure of `createTransactionBuilder`
(faucet.go 639-674). `availableUnboundStoredMana` holds the `UnboundStoredMana`
field of `CalculateAvailableManaInputs` at the latest slot, `.error ()` when
that calculation fails. `safemath.SafeMul` fails exactly when the uint64
product overflows and `safemath.SafeSub` exactly when the subtraction
underflows; every failure path returns payout 0 (logging a soft error), as
does an unbound-stored-mana remainder at or below `manaAmountMinFaucet`. -/
def manaPayoutPerOutput (batchSize manaAmount manaAmountMinFaucet : Nat)
    (availableUnboundStoredMana : Except Unit Nat) : Nat :=
  match availableUnboundStoredMana with
  | .error _ => 0
  | .ok unboundStoredMana =>
    if U64 ≤ batchSize * manaAmount then 0
    else if unboundStoredMana < batchSize * manaAmount then 0
    else if unboundStoredMana - batchSize * manaAmount ≤ manaAmountMinFaucet then 0
    else manaAmount

/-- Wrap-around of Go int64 arithmetic: reduce an integer into [-2^63, 2^63).
Applied to a `Nat` (through the coercion) it is also the Go conversion
`int64(u)` of a uint64 value. -/
def wrapI64 (n : Int) : Int := (n + 2 ^ 63) % 2 ^ 64 - 2 ^ 63

/-- The Go conversion of an int64 value to uint64, as in
`iotago.BaseToken(remainderAmount)`. -/
def toU64 (n : Int) : Nat := (n % 2 ^ 64).toNat

/-- Embeds the request-output loop of `createTransactionBuilder` (faucet.go
677-706) with Go int64 semantics: `remainderAmount` is an int64 (each
arithmetic step wrapped by `wrapI64`), the comparison converts the uint64
request amount with `int64(baseTokenAmount)`, and a truncated request pays
`iotago.BaseToken(remainderAmount)` (`toU64`). `outputCount` starts at the
number of inputs. Returns the emitted outputs, the final remainder and
`remainderOutputIndex` (the number of emitted request outputs). -/
def addRequestOutputs (maxOutputsCount payout : Nat) (outputCount : Nat)
    (remainderAmount : Int) : List QueueItem → List TxOutput × Int × Nat
  | [] => ([], remainderAmount, 0)
  | req :: rest =>
    if maxOutputsCount - 1 ≤ outputCount + 1 then ([], remainderAmount, 0)
    else if remainderAmount = 0 then ([], remainderAmount, 0)
    else
      let baseTokenAmount : Nat :=
        if remainderAmount < wrapI64 req.baseTokenAmount then toU64 remainderAmount
        else req.baseTokenAmount
      let remainderAmount := wrapI64 (remainderAmount - wrapI64 baseTokenAmount)
      let r := addRequestOutputs maxOutputsCount payout (outputCount + 1)
        remainderAmount rest
      (⟨baseTokenAmount, payout, req.address⟩ :: r.1, r.2.1, r.2.2 + 1)

/-- Embeds the input-collection accumulation of `createTransactionBuilder`
(faucet.go 630-637): `remainderAmount += int64(unspentOutput.Output.Amount)`
over an int64, wrapping both the uint64-to-int64 conversion and each
addition. -/
def collectInputsRemainderAmount (unspentAmounts : List Nat) : Int :=
  unspentAmounts.foldl (fun (acc : Int) (a : Nat) => wrapI64 (acc + wrapI64 a)) 0

/-- Embeds the output side of `createTransactionBuilder` (faucet.go 621-718):
all unspent outputs are added as inputs (accumulating `outputCount` and the
int64 `remainderAmount`), the request outputs are emitted by
`addRequestOutputs`, and when the remaining int64 is positive one remainder
output (zero mana) carrying `iotago.BaseToken(remainderAmount)` back to the
faucet address is appended. Returns the outputs and `remainderOutputIndex`. -/
def createTransactionOutputs (maxOutputsCount payout faucetAddress : Nat)
    (unspentAmounts : List Nat) (batchedRequests : List QueueItem) :
    List TxOutput × Nat :=
  let outputCount := unspentAmounts.length
  let remainderAmount := collectInputsRemainderAmount unspentAmounts
  let r := addRequestOutputs maxOutputsCount payout outputCount remainderAmount
    batchedRequests
  if 0 < r.2.1 then (r.1 ++ [⟨toU64 r.2.1, 0, faucetAddress⟩], r.2.2)
  else (r.1, r.2.2)

theorem wrapI64_eq_self (n : Int) (h0 : 0 ≤ n) (h1 : n < 2 ^ 63) : wrapI64 n = n := by
  unfold wrapI64
  omega

theorem toU64_eq_toNat (n : Int) (h0 : 0 ≤ n) (h1 : n < 2 ^ 64) : toU64 n = n.toNat := by
  unfold toU64
  omega

theorem addRequestOutputs_rem_zero (maxOutputsCount payout outputCount : Nat)
    (reqs : List QueueItem) :
    addRequestOutputs maxOutputsCount payout outputCount 0 reqs = ([], 0, 0) := by
  cases reqs with
  | nil => rfl
  | cons req rest =>
    simp only [addRequestOutputs]
    split
    · rfl
    · rfl

theorem addRequestOutputs_emit (maxOutputsCount payout outputCount : Nat)
    (remainderAmount : Int) (req : QueueItem) (rest : List QueueItem)
    (hb : outputCount + 1 < maxOutputsCount - 1)
    (h0 : 0 < remainderAmount) (h1 : remainderAmount < 2 ^ 63)
    (hamt : req.baseTokenAmount < 2 ^ 63) :
    addRequestOutputs maxOutputsCount payout outputCount remainderAmount (req :: rest)
      = (⟨min req.baseTokenAmount remainderAmount.toNat, payout, req.address⟩
            :: (addRequestOutputs maxOutputsCount payout (outputCount + 1)
              (remainderAmount
                - ((min req.baseTokenAmount remainderAmount.toNat : Nat) : Int))
              rest).1,
          (addRequestOutputs maxOutputsCount payout (outputCount + 1)
            (remainderAmount
              - ((min req.baseTokenAmount remainderAmount.toNat : Nat) : Int))
            rest).2.1,
          (addRequestOutputs maxOutputsCount payout (outputCount + 1)
            (remainderAmount
              - ((min req.baseTokenAmount remainderAmount.toNat : Nat) : Int))
            rest).2.2 + 1) := by
  have hw : wrapI64 (req.baseTokenAmount : Int) = (req.baseTokenAmount : Int) :=
    wrapI64_eq_self _ (by omega) (by omega)
  simp only [addRequestOutputs,
    if_neg (by omega : ¬ (maxOutputsCount - 1 ≤ outputCount + 1)),
    if_neg (by omega : ¬ (remainderAmount = 0)), hw]
  by_cases hlt : remainderAmount < (req.baseTokenAmount : Int)
  · rw [if_pos hlt]
    have htu : toU64 remainderAmount = remainderAmount.toNat :=
      toU64_eq_toNat _ (by omega) (by omega)
    have hmin : min req.baseTokenAmount remainderAmount.toNat
        = remainderAmount.toNat := by omega
    rw [htu, hmin]
    have hcast : ((remainderAmount.toNat : Nat) : Int) = remainderAmount := by omega
    rw [hcast]
    have hw2 : wrapI64 remainderAmount = remainderAmount :=
      wrapI64_eq_self _ (by omega) h1
    rw [hw2, sub_self]
    rw [wrapI64_eq_self 0 le_rfl (by norm_num)]
  · rw [if_neg hlt]
    have hmin : min req.baseTokenAmount remainderAmount.toNat
        = req.baseTokenAmount := by omega
    rw [hmin, hw]
    have harg : wrapI64 (remainderAmount - (req.baseTokenAmount : Int))
        = remainderAmount - (req.baseTokenAmount : Int) :=
      wrapI64_eq_self _ (by omega) (by omega)
    rw [harg]

theorem addRequestOutputs_truncate (maxOutputsCount payout outputCount : Nat)
    (remainderAmount : Int) (req : QueueItem) (rest : List QueueItem)
    (hb : outputCount + 1 < maxOutputsCount - 1)
    (h0 : 0 < remainderAmount) (h1 : remainderAmount < 2 ^ 63)
    (hamt : req.baseTokenAmount < 2 ^ 63)
    (hlt : remainderAmount < (req.baseTokenAmount : Int)) :
    addRequestOutputs maxOutputsCount payout outputCount remainderAmount (req :: rest)
      = ([⟨remainderAmount.toNat, payout, req.address⟩], 0, 1) := by
  rw [addRequestOutputs_emit maxOutputsCount payout outputCount remainderAmount req rest
    hb h0 h1 hamt]
  have hmin : min req.baseTokenAmount remainderAmount.toNat
      = remainderAmount.toNat := by omega
  have hcast : ((remainderAmount.toNat : Nat) : Int) = remainderAmount := by omega
  rw [hmin, hcast, sub_self, addRequestOutputs_rem_zero]

theorem addRequestOutputs_conservation (maxOutputsCount payout : Nat)
    (reqs : List QueueItem) : ∀ (outputCount : Nat) (remainderAmount : Int),
      (∀ r ∈ reqs, r.baseTokenAmount < 2 ^ 63) →
      0 ≤ remainderAmount → remainderAmount < 2 ^ 63 →
      0 ≤ (addRequestOutputs maxOutputsCount payout outputCount remainderAmount
          reqs).2.1
      ∧ ((((addRequestOutputs maxOutputsCount payout outputCount remainderAmount
            reqs).1.map TxOutput.amount).sum : Nat) : Int)
          + (addRequestOutputs maxOutputsCount payout outputCount remainderAmount
              reqs).2.1
        = remainderAmount := by
  induction reqs with
  | nil =>
    intro oc rem _ h0 h1
    refine ⟨h0, ?_⟩
    simp [addRequestOutputs]
  | cons req rest ih =>
    intro oc rem hamts h0 h1
    by_cases hb : maxOutputsCount - 1 ≤ oc + 1
    · rw [show addRequestOutputs maxOutputsCount payout oc rem (req :: rest)
        = ([], rem, 0) from by simp only [addRequestOutputs, if_pos hb]]
      exact ⟨h0, by simp⟩
    · by_cases hz : rem = 0
      · subst hz
        rw [addRequestOutputs_rem_zero]
        norm_num
      · have h0' : 0 < rem := lt_of_le_of_ne h0 (Ne.symm hz)
        have hamt : req.baseTokenAmount < 2 ^ 63 := hamts req (by simp)
        rw [addRequestOutputs_emit maxOutputsCount payout oc rem req rest (by omega)
          h0' h1 hamt]
        have hrec := ih (oc + 1)
          (rem - ((min req.baseTokenAmount rem.toNat : Nat) : Int))
          (fun r hr => hamts r (by simp [hr])) (by omega) (by omega)
        refine ⟨hrec.1, ?_⟩
        simp only [List.map_cons, List.sum_cons]
        push_cast
        push_cast at hrec
        omega

theorem addRequestOutputs_length (maxOutputsCount payout : Nat)
    (reqs : List QueueItem) : ∀ (outputCount : Nat) (remainderAmount : Int),
      (addRequestOutputs maxOutputsCount payout outputCount remainderAmount
        reqs).1.length ≤ maxOutputsCount - 2 - outputCount := by
  induction reqs with
  | nil => intro oc rem; simp [addRequestOutputs]
  | cons req rest ih =>
    intro oc rem
    simp only [addRequestOutputs]
    split
    · simp
    · split
      · simp
      · rename_i h1 h2
        simp only [List.length_cons]
        refine le_trans (Nat.add_le_add_right (ih (oc + 1) _) 1) (by omega)

theorem collectInputsRemainderAmount_eq_sum_aux (xs : List Nat) :
    ∀ acc : Int, 0 ≤ acc → acc + ((xs.sum : Nat) : Int) < 2 ^ 63 →
      List.foldl (fun (acc : Int) (a : Nat) => wrapI64 (acc + wrapI64 a)) acc xs
        = acc + ((xs.sum : Nat) : Int) := by
  induction xs with
  | nil => intro acc _ _; simp
  | cons a l ih =>
    intro acc h0 h1
    simp only [List.foldl_cons, List.sum_cons] at *
    rw [Nat.cast_add] at h1
    have ha : wrapI64 (a : Int) = (a : Int) := wrapI64_eq_self _ (by omega) (by omega)
    rw [ha]
    have hacc : wrapI64 (acc + (a : Int)) = acc + (a : Int) :=
      wrapI64_eq_self _ (by omega) (by omega)
    rw [hacc, ih (acc + (a : Int)) (by omega) (by omega)]
    rw [Nat.cast_add]
    ring

theorem collectInputsRemainderAmount_eq_sum (xs : List Nat) (h : xs.sum < 2 ^ 63) :
    collectInputsRemainderAmount xs = ((xs.sum : Nat) : Int) := by
  have haux := collectInputsRemainderAmount_eq_sum_aux xs 0 le_rfl (by omega)
  simpa [collectInputsRemainderAmount] using haux

/-- C7: in transaction assembly (the int64 remainder arithmetic embedded with
explicit wrap-around), for each accepted request in order one basic output
with amount min(request.amount, remainder) and a single address-unlock for the
requester is emitted and the remainder decremented — exactly so in the range
where the int64 operations are exact (remainder in [0, 2^63), request amounts
below 2^63), which the hypotheses pin down; the loop stops when the
output-slot budget MAX_OUTPUTS − 1 is reached (one slot kept for the
remainder) or when the remainder is 0; a truncated output zeroes the
remainder, so it is the last emitted request output and all later requests are
skipped; emitted amounts plus the final remainder add up to the initial
remainder; the input accumulation is the exact sum when that sum stays below
2^63; and exactly one remainder output carrying the leftover back to the
faucet address is appended if and only if the leftover is positive. -/
theorem createTransaction_assembly (maxOutputsCount payout faucetAddress : Nat)
    (outputCount : Nat) (remainderAmount : Int) (req : QueueItem)
    (rest reqs : List QueueItem) (unspentAmounts : List Nat) :
    (maxOutputsCount - 1 ≤ outputCount + 1 →
      addRequestOutputs maxOutputsCount payout outputCount remainderAmount (req :: rest)
        = ([], remainderAmount, 0))
    ∧ addRequestOutputs maxOutputsCount payout outputCount 0 reqs = ([], 0, 0)
    ∧ (outputCount + 1 < maxOutputsCount - 1 → 0 < remainderAmount →
        remainderAmount < 2 ^ 63 → req.baseTokenAmount < 2 ^ 63 →
        addRequestOutputs maxOutputsCount payout outputCount remainderAmount (req :: rest)
          = (⟨min req.baseTokenAmount remainderAmount.toNat, payout, req.address⟩
                :: (addRequestOutputs maxOutputsCount payout (outputCount + 1)
                  (remainderAmount
                    - ((min req.baseTokenAmount remainderAmount.toNat : Nat) : Int))
                  rest).1,
              (addRequestOutputs maxOutputsCount payout (outputCount + 1)
                (remainderAmount
                  - ((min req.baseTokenAmount remainderAmount.toNat : Nat) : Int))
                rest).2.1,
              (addRequestOutputs maxOutputsCount payout (outputCount + 1)
                (remainderAmount
                  - ((min req.baseTokenAmount remainderAmount.toNat : Nat) : Int))
                rest).2.2 + 1))
    ∧ (outputCount + 1 < maxOutputsCount - 1 → 0 < remainderAmount →
        remainderAmount < 2 ^ 63 → req.baseTokenAmount < 2 ^ 63 →
        remainderAmount < (req.baseTokenAmount : Int) →
        addRequestOutputs maxOutputsCount payout outputCount remainderAmount (req :: rest)
          = ([⟨remainderAmount.toNat, payout, req.address⟩], 0, 1))
    ∧ ((∀ r ∈ reqs, r.baseTokenAmount < 2 ^ 63) → 0 ≤ remainderAmount →
        remainderAmount < 2 ^ 63 →
        0 ≤ (addRequestOutputs maxOutputsCount payout outputCount remainderAmount
            reqs).2.1
        ∧ ((((addRequestOutputs maxOutputsCount payout outputCount remainderAmount
              reqs).1.map TxOutput.amount).sum : Nat) : Int)
            + (addRequestOutputs maxOutputsCount payout outputCount remainderAmount
                reqs).2.1
          = remainderAmount)
    ∧ (addRequestOutputs maxOutputsCount payout outputCount remainderAmount reqs).1.length
        ≤ maxOutputsCount - 2 - outputCount
    ∧ (unspentAmounts.sum < 2 ^ 63 →
        collectInputsRemainderAmount unspentAmounts = ((unspentAmounts.sum : Nat) : Int))
    ∧ (0 < (addRequestOutputs maxOutputsCount payout unspentAmounts.length
          (collectInputsRemainderAmount unspentAmounts) reqs).2.1 →
        createTransactionOutputs maxOutputsCount payout faucetAddress unspentAmounts reqs
          = ((addRequestOutputs maxOutputsCount payout unspentAmounts.length
                (collectInputsRemainderAmount unspentAmounts) reqs).1
              ++ [⟨toU64 (addRequestOutputs maxOutputsCount payout unspentAmounts.length
                  (collectInputsRemainderAmount unspentAmounts) reqs).2.1, 0,
                  faucetAddress⟩],
              (addRequestOutputs maxOutputsCount payout unspentAmounts.length
                (collectInputsRemainderAmount unspentAmounts) reqs).2.2))
    ∧ ((addRequestOutputs maxOutputsCount payout unspentAmounts.length
          (collectInputsRemainderAmount unspentAmounts) reqs).2.1 ≤ 0 →
        createTransactionOutputs maxOutputsCount payout faucetAddress unspentAmounts reqs
          = ((addRequestOutputs maxOutputsCount payout unspentAmounts.length
              (collectInputsRemainderAmount unspentAmounts) reqs).1,
              (addRequestOutputs maxOutputsCount payout unspentAmounts.length
                (collectInputsRemainderAmount unspentAmounts) reqs).2.2)) := by
  refine ⟨?_, addRequestOutputs_rem_zero maxOutputsCount payout outputCount reqs, ?_, ?_,
    ?_,
    addRequestOutputs_length maxOutputsCount payout reqs outputCount remainderAmount,
    collectInputsRemainderAmount_eq_sum unspentAmounts, ?_, ?_⟩
  · intro h
    simp only [addRequestOutputs, if_pos h]
  · intro hb h0 h1 hamt
    exact addRequestOutputs_emit maxOutputsCount payout outputCount remainderAmount
      req rest hb h0 h1 hamt
  · intro hb h0 h1 hamt hlt
    exact addRequestOutputs_truncate maxOutputsCount payout outputCount remainderAmount
      req rest hb h0 h1 hamt hlt
  · intro hamts h0 h1
    exact addRequestOutputs_conservation maxOutputsCount payout reqs outputCount
      remainderAmount hamts h0 h1
  · intro h
    unfold createTransactionOutputs
    dsimp only
    rw [if_pos h]
  · intro h
    unfold createTransactionOutputs
    dsimp only
    rw [if_neg (by omega)]

/-- Witness for C7 at concrete inputs: MAX_OUTPUTS 128, payout 7, one unspent
input of 50 and requests of 20, 40, 5: the 20 is paid in full, the 40 is
truncated to the remaining 30, the 5 is skipped, and no remainder output is
emitted; the int64 range hypotheses hold at these values. -/
theorem createTransaction_assembly_witness :
    addRequestOutputs 128 7 1 30 [⟨"b", 40, 2⟩, ⟨"c", 5, 3⟩] = ([⟨30, 7, 2⟩], 0, 1)
      ∧ createTransactionOutputs 128 7 99 [50] [⟨"a", 20, 1⟩, ⟨"b", 40, 2⟩, ⟨"c", 5, 3⟩]
        = ([⟨20, 7, 1⟩, ⟨30, 7, 2⟩], 2) := by
  constructor
  · have h := createTransaction_assembly 128 7 99 1 30 ⟨"b", 40, 2⟩ [⟨"c", 5, 3⟩] [] []
    have h4 := h.2.2.2.1 (by norm_num) (by norm_num) (by norm_num) (by norm_num)
      (by norm_num)
    simpa using h4
  · have h := createTransaction_assembly 128 7 99 0 0 ⟨"a", 20, 1⟩ []
      [⟨"a", 20, 1⟩, ⟨"b", 40, 2⟩, ⟨"c", 5, 3⟩] [50]
    have h9 := h.2.2.2.2.2.2.2.2 (by decide)
    rw [h9]
    decide

/-- C8: the per-output mana payout is 0 exactly when the mana-input calculation
fails, when the uint64 multiplication batch_size × per-request-mana overflows,
or when the exact integer difference unbound_stored_mana − batch_size ×
per-request-mana is at most the min-faucet-mana floor (which subsumes the
underflow case, the difference then being negative); otherwise the payout
equals the configured per-request mana amount. The comparison is stated over
the exact (unwrapped) integers. -/
theorem manaPayoutPerOutput_spec (batchSize manaAmount manaAmountMinFaucet : Nat)
    (availableUnboundStoredMana : Except Unit Nat) :
    (availableUnboundStoredMana = .error () →
      manaPayoutPerOutput batchSize manaAmount manaAmountMinFaucet
        availableUnboundStoredMana = 0)
    ∧ (∀ u : Nat, availableUnboundStoredMana = .ok u →
        manaPayoutPerOutput batchSize manaAmount manaAmountMinFaucet
            availableUnboundStoredMana
          = if U64 ≤ batchSize * manaAmount
              ∨ (u : Int) - ((batchSize * manaAmount : Nat) : Int)
                  ≤ (manaAmountMinFaucet : Int)
            then 0 else manaAmount) := by
  constructor
  · intro h
    subst h
    rfl
  · intro u hu
    subst hu
    unfold manaPayoutPerOutput
    dsimp only
    by_cases h1 : U64 ≤ batchSize * manaAmount
    · rw [if_pos h1, if_pos (Or.inl h1)]
    · rw [if_neg h1]
      by_cases h2 : u < batchSize * manaAmount
      · rw [if_pos h2, if_pos (Or.inr (by omega))]
      · rw [if_neg h2]
        by_cases h3 : u - batchSize * manaAmount ≤ manaAmountMinFaucet
        · rw [if_pos h3, if_pos (Or.inr (by omega))]
        · rw [if_neg h3, if_neg (by push_neg; exact ⟨by omega, by omega⟩)]

/-- Witness for C8 at concrete inputs: batch size 3, per-request mana 5,
floor 2, unbound stored mana 100: the payout is the configured 5. -/
theorem manaPayoutPerOutput_spec_witness :
    manaPayoutPerOutput 3 5 2 (.ok 100) = 5 := by
  have h := (manaPayoutPerOutput_spec 3 5 2 (.ok 100)).2 100 rfl
  rw [h, if_neg (by norm_num [U64])]

/-! ## Lifecycle resolver (faucet.go 898-1071) -/

/-- Embeds `api.TransactionState`: the six states the faucet inspects, plus
`other` for any remaining byte value of the underlying Go enum (which the
faucet treats as a fatal assertion). -/
inductive TransactionState where
  | unknown
  | pending
  | accepted
  | committed
  | finalized
  | failed
  | other (value : Nat)
deriving DecidableEq, Repr

/-- Embeds `clearPendingRequestsWithoutLocking` (faucet.go 526-529): delete the
batched requests of the pending transaction from the by-address index and null
the pending slot. The Go code dereferences `f.pendingTransaction` without a nil
check; a nil slot is modelled as the `none` result (a crash). -/
def clearPendingRequestsWithoutLocking (s : FaucetState) : Option FaucetState :=
  match s.pendingTransaction with
  | none => none
  | some tx =>
    some { clearRequestsWithoutLocking s tx.queuedItems with pendingTransaction := none }

/-- Embeds `readdPendingRequestsWithoutLocking` (faucet.go 534-537): re-enqueue
the batched requests of the pending transaction (non-blocking) and null the
pending slot. As above, a nil slot dereference is the `none` result. -/
def readdPendingRequestsWithoutLocking (s : FaucetState) : Option FaucetState :=
  match s.pendingTransaction with
  | none => none
  | some tx =>
    some { readdRequestsWithoutLocking s tx.queuedItems with pendingTransaction := none }

/-- Embeds the inner `checkPendingTransaction` closure of
`checkPendingTransactionState` (faucet.go 905-948), returning
`some (clearPending, readdPending)`; the `default` branch of the Go switch is a
panic, modelled as `none`. `fetchTransactionMetadata` yields `.error ()` for a
failed fetch and `.ok none` for nil metadata (orphaned block). -/
def checkPendingTransaction
    (fetchTransactionMetadata : Nat → Except Unit (Option TransactionState))
    (pendingTx : Option PendingTransaction) : Option (Bool × Bool) :=
  match pendingTx with
  | none => some (false, false)
  | some tx =>
    match fetchTransactionMetadata tx.transactionID with
    | .error _ => some (false, true)
    | .ok none => some (false, true)
    | .ok (some .unknown) => some (false, true)
    | .ok (some .pending) => some (false, false)
    | .ok (some .accepted) => some (true, false)
    | .ok (some .committed) => some (true, false)
    | .ok (some .finalized) => some (true, false)
    | .ok (some .failed) => some (false, true)
    | .ok (some (.other _)) => none

/-- Embeds `checkPendingTransactionState` (faucet.go 900-992):
`snapshotPending` is the pending slot read under the read lock; `s` is the
state found after acquiring the write lock (its `pendingTransaction` may
differ). When neither clear nor readd is decided nothing happens; otherwise
the slot is re-checked under the write lock and the (re-)decision applied. -/
def checkPendingTransactionState
    (fetchTransactionMetadata : Nat → Except Unit (Option TransactionState))
    (snapshotPending : Option PendingTransaction) (s : FaucetState) :
    Option FaucetState :=
  match checkPendingTransaction fetchTransactionMetadata snapshotPending with
  | none => none
  | some d =>
    if !(d.1 || d.2) then some s
    else
      match (if snapshotPending ≠ s.pendingTransaction then
          checkPendingTransaction fetchTransactionMetadata s.pendingTransaction
        else some d) with
      | none => none
      | some d2 =>
        if d2.1 then clearPendingRequestsWithoutLocking s
        else if d2.2 then readdPendingRequestsWithoutLocking s
        else some s

/-- Embeds the inner `checkPendingTransaction` closure of
`ApplyAcceptedTransaction` (faucet.go 1002-1035): clear when the output id
(pending transaction id, index 0) was created; otherwise readd when one of the
consumed inputs of the pending transaction was consumed; otherwise keep. -/
def applyAcceptedCheckPendingTransaction (createdOutputs consumedOutputs : List OutputID)
    (pendingTx : Option PendingTransaction) : Bool × Bool :=
  match pendingTx with
  | none => (false, false)
  | some tx =>
    let txOutputIDIndexZero : OutputID := ⟨tx.transactionID, 0⟩
    if txOutputIDIndexZero ∈ createdOutputs then (true, false)
    else if tx.consumedInputs.any (fun i => decide (i ∈ consumedOutputs)) then (false, true)
    else (false, false)

/-- Embeds `ApplyAcceptedTransaction` (faucet.go 997-1071), with the same
snapshot/re-check structure as `checkPendingTransactionState`. -/
def applyAcceptedTransaction (createdOutputs consumedOutputs : List OutputID)
    (snapshotPending : Option PendingTransaction) (s : FaucetState) :
    Option FaucetState :=
  let d := applyAcceptedCheckPendingTransaction createdOutputs consumedOutputs
    snapshotPending
  if !(d.1 || d.2) then some s
  else
    let d2 := if snapshotPending ≠ s.pendingTransaction then
        applyAcceptedCheckPendingTransaction createdOutputs consumedOutputs
          s.pendingTransaction
      else d
    if d2.1 then clearPendingRequestsWithoutLocking s
    else if d2.2 then readdPendingRequestsWithoutLocking s
    else some s

theorem clearPendingRequests_effect (tx : PendingTransaction) (s : FaucetState)
    (hp : s.pendingTransaction = some tx) :
    clearPendingRequestsWithoutLocking s
      = some { s with
          queueMap := mapDeleteMany s.queueMap tx.queuedItems
          pendingTransaction := none } := by
  unfold clearPendingRequestsWithoutLocking
  rw [hp]
  dsimp only
  rw [clearRequestsWithoutLocking_eq tx.queuedItems s]

theorem readdPendingRequests_effect (tx : PendingTransaction) (s : FaucetState)
    (hp : s.pendingTransaction = some tx)
    (hroom : s.queue.length + tx.queuedItems.length ≤ queueCapacity) :
    readdPendingRequestsWithoutLocking s
      = some { s with queue := s.queue ++ tx.queuedItems, pendingTransaction := none } := by
  unfold readdPendingRequestsWithoutLocking
  rw [hp]
  dsimp only
  rw [readdRequestsWithoutLocking_room tx.queuedItems s hroom]

theorem checkPendingTransactionState_keep
    (fetchTransactionMetadata : Nat → Except Unit (Option TransactionState))
    (snapshotPending : Option PendingTransaction) (s : FaucetState)
    (hd : checkPendingTransaction fetchTransactionMetadata snapshotPending
      = some (false, false)) :
    checkPendingTransactionState fetchTransactionMetadata snapshotPending s = some s := by
  unfold checkPendingTransactionState
  rw [hd]
  rfl

theorem checkPendingTransactionState_clear
    (fetchTransactionMetadata : Nat → Except Unit (Option TransactionState))
    (tx : PendingTransaction) (s : FaucetState)
    (hp : s.pendingTransaction = some tx)
    (hd : checkPendingTransaction fetchTransactionMetadata (some tx)
      = some (true, false)) :
    checkPendingTransactionState fetchTransactionMetadata (some tx) s
      = clearPendingRequestsWithoutLocking s := by
  unfold checkPendingTransactionState
  rw [hd, hp]
  simp

theorem checkPendingTransactionState_readd
    (fetchTransactionMetadata : Nat → Except Unit (Option TransactionState))
    (tx : PendingTransaction) (s : FaucetState)
    (hp : s.pendingTransaction = some tx)
    (hd : checkPendingTransaction fetchTransactionMetadata (some tx)
      = some (false, true)) :
    checkPendingTransactionState fetchTransactionMetadata (some tx) s
      = readdPendingRequestsWithoutLocking s := by
  unfold checkPendingTransactionState
  rw [hd, hp]
  simp

theorem checkPendingTransactionState_fatal
    (fetchTransactionMetadata : Nat → Except Unit (Option TransactionState))
    (snapshotPending : Option PendingTransaction) (s : FaucetState)
    (hd : checkPendingTransaction fetchTransactionMetadata snapshotPending = none) :
    checkPendingTransactionState fetchTransactionMetadata snapshotPending s = none := by
  unfold checkPendingTransactionState
  rw [hd]

/-- C4: for a non-nil pending-transaction snapshot (consistent with the state
at the write lock), the periodic metadata poll decides exactly as follows: a
fetch error, a null metadata result, state Unknown or state Failed each yield
readd (the batched items are returned to the queue — there being room — and
the pending slot nulled); state Pending yields keep (no state change); states
Accepted, Committed and Finalized yield clear (the batched items are removed
from the address-index and the pending slot nulled); any other transaction
state is a fatal assertion, modelled as the `none` result. -/
theorem checkPendingTransactionState_decisions
    (fetchTransactionMetadata : Nat → Except Unit (Option TransactionState))
    (tx : PendingTransaction) (s : FaucetState)
    (hpending : s.pendingTransaction = some tx)
    (hroom : s.queue.length + tx.queuedItems.length ≤ queueCapacity) :
    ((fetchTransactionMetadata tx.transactionID = .error ()
        ∨ fetchTransactionMetadata tx.transactionID = .ok none
        ∨ fetchTransactionMetadata tx.transactionID = .ok (some .unknown)
        ∨ fetchTransactionMetadata tx.transactionID = .ok (some .failed)) →
      checkPendingTransactionState fetchTransactionMetadata (some tx) s
        = some { s with queue := s.queue ++ tx.queuedItems, pendingTransaction := none })
    ∧ (fetchTransactionMetadata tx.transactionID = .ok (some .pending) →
      checkPendingTransactionState fetchTransactionMetadata (some tx) s = some s)
    ∧ ((fetchTransactionMetadata tx.transactionID = .ok (some .accepted)
        ∨ fetchTransactionMetadata tx.transactionID = .ok (some .committed)
        ∨ fetchTransactionMetadata tx.transactionID = .ok (some .finalized)) →
      checkPendingTransactionState fetchTransactionMetadata (some tx) s
        = some { s with
            queueMap := mapDeleteMany s.queueMap tx.queuedItems
            pendingTransaction := none })
    ∧ (∀ value : Nat,
        fetchTransactionMetadata tx.transactionID = .ok (some (.other value)) →
      checkPendingTransactionState fetchTransactionMetadata (some tx) s = none) := by
  refine ⟨?_, ?_, ?_, ?_⟩
  · intro hf
    have hd : checkPendingTransaction fetchTransactionMetadata (some tx)
        = some (false, true) := by
      rcases hf with hf | hf | hf | hf <;> simp [checkPendingTransaction, hf]
    rw [checkPendingTransactionState_readd fetchTransactionMetadata tx s hpending hd,
      readdPendingRequests_effect tx s hpending hroom]
  · intro hf
    exact checkPendingTransactionState_keep fetchTransactionMetadata (some tx) s
      (by simp [checkPendingTransaction, hf])
  · intro hf
    have hd : checkPendingTransaction fetchTransactionMetadata (some tx)
        = some (true, false) := by
      rcases hf with hf | hf | hf <;> simp [checkPendingTransaction, hf]
    rw [checkPendingTransactionState_clear fetchTransactionMetadata tx s hpending hd,
      clearPendingRequests_effect tx s hpending]
  · intro value hf
    exact checkPendingTransactionState_fatal fetchTransactionMetadata (some tx) s
      (by simp [checkPendingTransaction, hf])

/-- Witness for C4 at concrete inputs: a pending transaction with one batched
request; a metadata result Accepted clears it from the address-index, while a
fetch error re-adds it to the queue; both null the pending slot. -/
theorem checkPendingTransactionState_decisions_witness :
    checkPendingTransactionState (fun _ => .ok (some .accepted)) (some ⟨1, 5, [⟨"q", 3, 9⟩], [⟨2, 0⟩]⟩)
        ⟨0, [], [("q", ⟨"q", 3, 9⟩)], some ⟨1, 5, [⟨"q", 3, 9⟩], [⟨2, 0⟩]⟩⟩
      = some ⟨0, [], [], none⟩
    ∧ checkPendingTransactionState (fun _ => .error ()) (some ⟨1, 5, [⟨"q", 3, 9⟩], [⟨2, 0⟩]⟩)
        ⟨0, [], [("q", ⟨"q", 3, 9⟩)], some ⟨1, 5, [⟨"q", 3, 9⟩], [⟨2, 0⟩]⟩⟩
      = some ⟨0, [⟨"q", 3, 9⟩], [("q", ⟨"q", 3, 9⟩)], none⟩ := by
  constructor
  · have h := checkPendingTransactionState_decisions (fun _ => .ok (some .accepted))
      ⟨1, 5, [⟨"q", 3, 9⟩], [⟨2, 0⟩]⟩
      ⟨0, [], [("q", ⟨"q", 3, 9⟩)], some ⟨1, 5, [⟨"q", 3, 9⟩], [⟨2, 0⟩]⟩⟩
      rfl (by norm_num [queueCapacity])
    rw [h.2.2.1 (Or.inl rfl)]
    rfl
  · have h := checkPendingTransactionState_decisions (fun _ => .error ())
      ⟨1, 5, [⟨"q", 3, 9⟩], [⟨2, 0⟩]⟩
      ⟨0, [], [("q", ⟨"q", 3, 9⟩)], some ⟨1, 5, [⟨"q", 3, 9⟩], [⟨2, 0⟩]⟩⟩
      rfl (by norm_num [queueCapacity])
    rw [h.1 (Or.inl rfl)]
    rfl

theorem applyAcceptedTransaction_keep (createdOutputs consumedOutputs : List OutputID)
    (snapshotPending : Option PendingTransaction) (s : FaucetState)
    (hd : applyAcceptedCheckPendingTransaction createdOutputs consumedOutputs
      snapshotPending = (false, false)) :
    applyAcceptedTransaction createdOutputs consumedOutputs snapshotPending s = some s := by
  unfold applyAcceptedTransaction
  rw [hd]
  rfl

theorem applyAcceptedTransaction_clear (createdOutputs consumedOutputs : List OutputID)
    (tx : PendingTransaction) (s : FaucetState)
    (hp : s.pendingTransaction = some tx)
    (hd : applyAcceptedCheckPendingTransaction createdOutputs consumedOutputs
      (some tx) = (true, false)) :
    applyAcceptedTransaction createdOutputs consumedOutputs (some tx) s
      = clearPendingRequestsWithoutLocking s := by
  unfold applyAcceptedTransaction
  rw [hd, hp]
  simp

theorem applyAcceptedTransaction_readd (createdOutputs consumedOutputs : List OutputID)
    (tx : PendingTransaction) (s : FaucetState)
    (hp : s.pendingTransaction = some tx)
    (hd : applyAcceptedCheckPendingTransaction createdOutputs consumedOutputs
      (some tx) = (false, true)) :
    applyAcceptedTransaction createdOutputs consumedOutputs (some tx) s
      = readdPendingRequestsWithoutLocking s := by
  unfold applyAcceptedTransaction
  rw [hd, hp]
  simp

/-- C5: for a non-nil pending-transaction snapshot (consistent with the state
at the write lock) and a ledger update given as created/consumed sets: the
decision is clear exactly when the output id (pending transaction id, output
index 0) is among the created outputs; otherwise it is readd exactly when some
consumed input of the pending transaction is among the consumed outputs;
otherwise it is keep. Clear removes the batched items from the address-index
and nulls the pending slot, readd re-enqueues the batched items (there being
room) and nulls the pending slot, keep changes nothing. -/
theorem applyAcceptedTransaction_decisions (createdOutputs consumedOutputs : List OutputID)
    (tx : PendingTransaction) (s : FaucetState)
    (hpending : s.pendingTransaction = some tx)
    (hroom : s.queue.length + tx.queuedItems.length ≤ queueCapacity) :
    (applyAcceptedCheckPendingTransaction createdOutputs consumedOutputs (some tx)
        = (true, false)
      ↔ (⟨tx.transactionID, 0⟩ : OutputID) ∈ createdOutputs)
    ∧ ((⟨tx.transactionID, 0⟩ : OutputID) ∉ createdOutputs →
        (applyAcceptedCheckPendingTransaction createdOutputs consumedOutputs (some tx)
            = (false, true)
          ↔ ∃ i ∈ tx.consumedInputs, i ∈ consumedOutputs))
    ∧ ((⟨tx.transactionID, 0⟩ : OutputID) ∉ createdOutputs →
        (¬ ∃ i ∈ tx.consumedInputs, i ∈ consumedOutputs) →
        applyAcceptedCheckPendingTransaction createdOutputs consumedOutputs (some tx)
          = (false, false))
    ∧ ((⟨tx.transactionID, 0⟩ : OutputID) ∈ createdOutputs →
        applyAcceptedTransaction createdOutputs consumedOutputs (some tx) s
          = some { s with
              queueMap := mapDeleteMany s.queueMap tx.queuedItems
              pendingTransaction := none })
    ∧ ((⟨tx.transactionID, 0⟩ : OutputID) ∉ createdOutputs →
        (∃ i ∈ tx.consumedInputs, i ∈ consumedOutputs) →
        applyAcceptedTransaction createdOutputs consumedOutputs (some tx) s
          = some { s with
              queue := s.queue ++ tx.queuedItems
              pendingTransaction := none })
    ∧ ((⟨tx.transactionID, 0⟩ : OutputID) ∉ createdOutputs →
        (¬ ∃ i ∈ tx.consumedInputs, i ∈ consumedOutputs) →
        applyAcceptedTransaction createdOutputs consumedOutputs (some tx) s = some s) := by
  have hdec1 : (⟨tx.transactionID, 0⟩ : OutputID) ∈ createdOutputs →
      applyAcceptedCheckPendingTransaction createdOutputs consumedOutputs (some tx)
        = (true, false) := by
    intro hmem
    simp [applyAcceptedCheckPendingTransaction, hmem]
  have hdec2 : (⟨tx.transactionID, 0⟩ : OutputID) ∉ createdOutputs →
      (∃ i ∈ tx.consumedInputs, i ∈ consumedOutputs) →
      applyAcceptedCheckPendingTransaction createdOutputs consumedOutputs (some tx)
        = (false, true) := by
    intro hmem hex
    simp only [applyAcceptedCheckPendingTransaction]
    rw [if_neg hmem, if_pos (by simpa using hex)]
  have hdec3 : (⟨tx.transactionID, 0⟩ : OutputID) ∉ createdOutputs →
      (¬ ∃ i ∈ tx.consumedInputs, i ∈ consumedOutputs) →
      applyAcceptedCheckPendingTransaction createdOutputs consumedOutputs (some tx)
        = (false, false) := by
    intro hmem hex
    simp only [applyAcceptedCheckPendingTransaction]
    rw [if_neg hmem, if_neg (by simpa using hex)]
  refine ⟨?_, ?_, hdec3, ?_, ?_, ?_⟩
  · constructor
    · intro hd
      by_contra hmem
      by_cases hex : ∃ i ∈ tx.consumedInputs, i ∈ consumedOutputs
      · rw [hdec2 hmem hex] at hd
        exact absurd hd (by simp)
      · rw [hdec3 hmem hex] at hd
        exact absurd hd (by simp)
    · exact hdec1
  · intro hmem
    constructor
    · intro hd
      by_contra hex
      rw [hdec3 hmem hex] at hd
      exact absurd hd (by simp)
    · exact hdec2 hmem
  · intro hmem
    rw [applyAcceptedTransaction_clear createdOutputs consumedOutputs tx s hpending
      (hdec1 hmem)]
    exact clearPendingRequests_effect tx s hpending
  · intro hmem hex
    rw [applyAcceptedTransaction_readd createdOutputs consumedOutputs tx s hpending
      (hdec2 hmem hex)]
    exact readdPendingRequests_effect tx s hpending hroom
  · intro hmem hex
    exact applyAcceptedTransaction_keep createdOutputs consumedOutputs (some tx) s
      (hdec3 hmem hex)

/-- Witness for C5 at concrete inputs: with pending transaction id 5 and
consumed inputs [(2,0)], a ledger update creating (5,0) clears the batched
request from the index, and one consuming (2,0) without creating (5,0) re-adds
it to the queue; both null the pending slot. -/
theorem applyAcceptedTransaction_decisions_witness :
    applyAcceptedTransaction [⟨5, 0⟩] [] (some ⟨1, 5, [⟨"q", 3, 9⟩], [⟨2, 0⟩]⟩)
        ⟨0, [], [("q", ⟨"q", 3, 9⟩)], some ⟨1, 5, [⟨"q", 3, 9⟩], [⟨2, 0⟩]⟩⟩
      = some ⟨0, [], [], none⟩
    ∧ applyAcceptedTransaction [] [⟨2, 0⟩] (some ⟨1, 5, [⟨"q", 3, 9⟩], [⟨2, 0⟩]⟩)
        ⟨0, [], [("q", ⟨"q", 3, 9⟩)], some ⟨1, 5, [⟨"q", 3, 9⟩], [⟨2, 0⟩]⟩⟩
      = some ⟨0, [⟨"q", 3, 9⟩], [("q", ⟨"q", 3, 9⟩)], none⟩ := by
  constructor
  · have h := applyAcceptedTransaction_decisions [⟨5, 0⟩] []
      ⟨1, 5, [⟨"q", 3, 9⟩], [⟨2, 0⟩]⟩
      ⟨0, [], [("q", ⟨"q", 3, 9⟩)], some ⟨1, 5, [⟨"q", 3, 9⟩], [⟨2, 0⟩]⟩⟩
      rfl (by norm_num [queueCapacity])
    rw [h.2.2.2.1 (by norm_num)]
    rfl
  · have h := applyAcceptedTransaction_decisions [] [⟨2, 0⟩]
      ⟨1, 5, [⟨"q", 3, 9⟩], [⟨2, 0⟩]⟩
      ⟨0, [], [("q", ⟨"q", 3, 9⟩)], some ⟨1, 5, [⟨"q", 3, 9⟩], [⟨2, 0⟩]⟩⟩
      rfl (by norm_num [queueCapacity])
    rw [h.2.2.2.2.1 (by norm_num) ⟨⟨2, 0⟩, by norm_num⟩]
    rfl

theorem clearPendingRequests_ne_none (s : FaucetState) (tx : PendingTransaction)
    (hp : s.pendingTransaction = some tx) : clearPendingRequestsWithoutLocking s ≠ none := by
  simp [clearPendingRequestsWithoutLocking, hp]

theorem readdPendingRequests_ne_none (s : FaucetState) (tx : PendingTransaction)
    (hp : s.pendingTransaction = some tx) : readdPendingRequestsWithoutLocking s ≠ none := by
  simp [readdPendingRequestsWithoutLocking, hp]

theorem clearPendingRequests_eq_none (s : FaucetState)
    (h : clearPendingRequestsWithoutLocking s = none) : s.pendingTransaction = none := by
  cases hp : s.pendingTransaction with
  | none => rfl
  | some tx => exact absurd h (clearPendingRequests_ne_none s tx hp)

theorem readdPendingRequests_eq_none (s : FaucetState)
    (h : readdPendingRequestsWithoutLocking s = none) : s.pendingTransaction = none := by
  cases hp : s.pendingTransaction with
  | none => rfl
  | some tx => exact absurd h (readdPendingRequests_ne_none s tx hp)

theorem applyAcceptedTransaction_pending_none (createdOutputs consumedOutputs : List OutputID)
    (snapshotPending : Option PendingTransaction) (s : FaucetState)
    (hp : s.pendingTransaction = none) :
    applyAcceptedTransaction createdOutputs consumedOutputs snapshotPending s = some s := by
  cases snapshotPending with
  | none => rfl
  | some tx1 =>
    unfold applyAcceptedTransaction
    rcases hDec : applyAcceptedCheckPendingTransaction createdOutputs consumedOutputs
      (some tx1) with ⟨c, r⟩
    rw [hp]
    cases c <;> cases r <;> simp [applyAcceptedCheckPendingTransaction]

theorem applyAcceptedTransaction_ne_none (createdOutputs consumedOutputs : List OutputID)
    (snapshotPending : Option PendingTransaction) (s : FaucetState) :
    applyAcceptedTransaction createdOutputs consumedOutputs snapshotPending s ≠ none := by
  cases hsp : s.pendingTransaction with
  | none =>
    rw [applyAcceptedTransaction_pending_none createdOutputs consumedOutputs
      snapshotPending s hsp]
    simp
  | some tx =>
    cases snapshotPending with
    | none =>
      rw [show applyAcceptedTransaction createdOutputs consumedOutputs none s
        = some s from rfl]
      simp
    | some tx1 =>
      unfold applyAcceptedTransaction
      rcases hDec : applyAcceptedCheckPendingTransaction createdOutputs consumedOutputs
        (some tx1) with ⟨c, r⟩
      rw [hsp]
      by_cases hchg : (some tx1 ≠ some tx)
      · rcases hDec2 : applyAcceptedCheckPendingTransaction createdOutputs
          consumedOutputs (some tx) with ⟨c2, r2⟩
        cases c <;> cases r <;> cases c2 <;> cases r2 <;>
          simp [hchg, hDec2, clearPendingRequests_ne_none s tx hsp,
            readdPendingRequests_ne_none s tx hsp]
      · cases c <;> cases r <;>
          simp [hchg, clearPendingRequests_ne_none s tx hsp,
            readdPendingRequests_ne_none s tx hsp]

theorem checkPendingTransactionState_pending_none
    (fetchTransactionMetadata : Nat → Except Unit (Option TransactionState))
    (snapshotPending : Option PendingTransaction) (s : FaucetState)
    (hp : s.pendingTransaction = none) :
    checkPendingTransactionState fetchTransactionMetadata snapshotPending s = some s
      ∨ checkPendingTransaction fetchTransactionMetadata snapshotPending = none := by
  cases snapshotPending with
  | none => exact Or.inl rfl
  | some tx1 =>
    rcases hDec : checkPendingTransaction fetchTransactionMetadata (some tx1) with _ | ⟨c, r⟩
    · exact Or.inr rfl
    · left
      unfold checkPendingTransactionState
      rw [hDec, hp]
      cases c <;> cases r <;> simp [checkPendingTransaction]

theorem checkPendingTransactionState_none_source
    (fetchTransactionMetadata : Nat → Except Unit (Option TransactionState))
    (snapshotPending : Option PendingTransaction) (s : FaucetState)
    (h : checkPendingTransactionState fetchTransactionMetadata snapshotPending s = none) :
    checkPendingTransaction fetchTransactionMetadata snapshotPending = none
      ∨ checkPendingTransaction fetchTransactionMetadata s.pendingTransaction = none := by
  cases snapshotPending with
  | none =>
    rw [show checkPendingTransactionState fetchTransactionMetadata none s = some s
      from rfl] at h
    exact absurd h (by simp)
  | some tx1 =>
    rcases hDec : checkPendingTransaction fetchTransactionMetadata (some tx1)
      with _ | ⟨c, r⟩
    · exact Or.inl rfl
    · unfold checkPendingTransactionState at h
      rw [hDec] at h
      cases hsp : s.pendingTransaction with
      | none =>
        rw [hsp] at h
        cases c <;> cases r <;> simp [checkPendingTransaction] at h
      | some tx =>
        rw [hsp] at h
        by_cases hchg : tx1 = tx
        · subst hchg
          cases c <;> cases r <;>
            simp [checkPendingTransaction, clearPendingRequests_ne_none s tx1 hsp,
              readdPendingRequests_ne_none s tx1 hsp] at h
        · rcases hDec2 : checkPendingTransaction fetchTransactionMetadata (some tx)
            with _ | ⟨c2, r2⟩
          · exact Or.inr rfl
          · rw [hDec2] at h
            cases c <;> cases r <;> cases c2 <;> cases r2 <;>
              simp [checkPendingTransaction, hchg,
                clearPendingRequests_ne_none s tx hsp,
                readdPendingRequests_ne_none s tx hsp] at h

/-- C10: for both lifecycle entry points, a nil pending slot at the read-lock
snapshot means no state change (so a second ledger update arriving after the
slot was cleared is a no-op); with a nil slot at the write-lock recheck the
operations also change nothing; and the clear/readd branches, which
dereference the pending transaction, are reached only with a non-nil
re-checked slot: the ledger-update handler can never crash on a nil
dereference, and the metadata poll yields the crash value only through the
fatal unknown-state assertion of its decision function, never through the nil
dereference. -/
theorem pending_nil_noop_and_safety
    (fetchTransactionMetadata : Nat → Except Unit (Option TransactionState))
    (createdOutputs consumedOutputs : List OutputID)
    (snapshotPending : Option PendingTransaction) (s : FaucetState) :
    checkPendingTransactionState fetchTransactionMetadata none s = some s
    ∧ applyAcceptedTransaction createdOutputs consumedOutputs none s = some s
    ∧ (s.pendingTransaction = none →
        applyAcceptedTransaction createdOutputs consumedOutputs snapshotPending s = some s)
    ∧ applyAcceptedTransaction createdOutputs consumedOutputs snapshotPending s ≠ none
    ∧ (s.pendingTransaction = none →
        checkPendingTransactionState fetchTransactionMetadata snapshotPending s = some s
          ∨ checkPendingTransaction fetchTransactionMetadata snapshotPending = none)
    ∧ (checkPendingTransactionState fetchTransactionMetadata snapshotPending s = none →
        checkPendingTransaction fetchTransactionMetadata snapshotPending = none
          ∨ checkPendingTransaction fetchTransactionMetadata s.pendingTransaction = none) := by
  refine ⟨rfl, rfl, ?_, ?_, ?_, ?_⟩
  · intro hp
    exact applyAcceptedTransaction_pending_none createdOutputs consumedOutputs
      snapshotPending s hp
  · exact applyAcceptedTransaction_ne_none createdOutputs consumedOutputs
      snapshotPending s
  · intro hp
    exact checkPendingTransactionState_pending_none fetchTransactionMetadata
      snapshotPending s hp
  · intro h
    exact checkPendingTransactionState_none_source fetchTransactionMetadata
      snapshotPending s h

/-- Witness for C10 at concrete inputs: with a nil pending slot both entry
points leave the state unchanged, and the ledger-update handler does not
crash. -/
theorem pending_nil_noop_and_safety_witness :
    checkPendingTransactionState (fun _ => .error ()) none ⟨7, [], [], none⟩
        = some ⟨7, [], [], none⟩
    ∧ applyAcceptedTransaction [⟨5, 0⟩] [] (some ⟨1, 5, [], [⟨2, 0⟩]⟩) ⟨7, [], [], none⟩
        = some ⟨7, [], [], none⟩
    ∧ applyAcceptedTransaction [⟨5, 0⟩] [] (some ⟨1, 5, [], [⟨2, 0⟩]⟩) ⟨7, [], [], none⟩
        ≠ none := by
  have h := pending_nil_noop_and_safety (fun _ => .error ()) [⟨5, 0⟩] []
    (some ⟨1, 5, [], [⟨2, 0⟩]⟩) ⟨7, [], [], none⟩
  exact ⟨h.1, h.2.2.1 rfl, h.2.2.2.1⟩

end InxFaucet
